import Mathlib

/-!
Shallow embedding of the Knowledge & Inference Engine of the havilogger
repository (`apps/api/app/inferences.py`, `apps/api/app/db.py`,
`apps/api/app/knowledge_utils.py`, and the inference endpoints of
`apps/api/app/main.py`).

Modelling conventions, used uniformly below:
* JSON-like payload values are the inductive `Value`; a payload
  (`Dict[str, Any]` with insertion order) is an association list
  `List (String × Value)`.  Python `==` on values is `Value.beq`.
* Timestamps (`datetime`) are integers (seconds); `timedelta(hours=h)`
  is `h * 3600`.
* Floats that the code compares (confidence values) are rationals.
* SQLite tables are lists of rows in insertion (rowid) order;
  `cursor.lastrowid` is `maxId + 1`; `SELECT ... WHERE id = ?` is
  `List.find?`; `UPDATE` is `List.map` guarded on the row predicate;
  `ORDER BY c DESC` is a stable insertion sort on `c`.
* SHA-256 hashing in the dedupe-key functions is modelled as an
  injective stand-in: the hex digest of the canonical JSON dump is
  represented by the canonical JSON dump itself (equal inputs give
  equal hashes, which is the only property the code relies on; no
  theorem below depends on hash collisions being impossible).
* JSON string escaping is omitted in the serializer: the payload
  strings this repository produces contain no characters that
  `json.dumps` would escape.
-/

namespace Havi

/-- JSON-like values stored in payload maps (`Dict[str, Any]`). -/
inductive Value where
  | vNull : Value
  | vBool : Bool → Value
  | vInt : Int → Value
  | vStr : String → Value
  | vList : List Value → Value
  | vObj : List (String × Value) → Value

mutual

/-- Structural equality on values (Python `==`). -/
def Value.beq : Value → Value → Bool
  | .vNull, .vNull => true
  | .vBool a, .vBool b => a == b
  | .vInt a, .vInt b => a == b
  | .vStr a, .vStr b => a == b
  | .vList xs, .vList ys => Value.beqList xs ys
  | .vObj fs, .vObj gs => Value.beqFields fs gs
  | _, _ => false

def Value.beqList : List Value → List Value → Bool
  | [], [] => true
  | x :: xs, y :: ys => Value.beq x y && Value.beqList xs ys
  | _, _ => false

def Value.beqFields : List (String × Value) → List (String × Value) → Bool
  | [], [] => true
  | (k, v) :: fs, (k', v') :: gs => k == k' && Value.beq v v' && Value.beqFields fs gs
  | _, _ => false

end

/-- Ordered-key JSON object: a Python dict with insertion order. -/
abbrev Payload := List (String × Value)

/-- `d.get(k)` on a Python dict: the binding for the key, if any. -/
def payloadLookup (p : Payload) (k : String) : Option Value :=
  (p.find? (fun kv => kv.1 == k)).map (·.2)

/-- Python truthiness of a payload value (`if value:`). -/
def Value.truthy : Value → Bool
  | .vNull => false
  | .vBool b => b
  | .vInt n => n != 0
  | .vStr s => s != ""
  | .vList xs => !xs.isEmpty
  | .vObj fs => !fs.isEmpty

/-- Truthiness of `d.get(k)` (missing key behaves like `None`). -/
def optTruthy : Option Value → Bool
  | some v => v.truthy
  | none => false

/-- `d[k] = v` / `{**d, k: v}`: replace the value in place if the key is
present, otherwise append the new binding. -/
def dictInsert (p : Payload) (k : String) (v : Value) : Payload :=
  if p.any (fun kv => kv.1 == k) then
    p.map (fun kv => if kv.1 == k then (kv.1, v) else kv)
  else
    p ++ [(k, v)]

/-- Key order used by `json.dumps(..., sort_keys=True)` (code-point
order on keys, as in Python string comparison). -/
def keyLe (a b : String × Value) : Prop := a.1 ≤ b.1

instance : DecidableRel keyLe := fun a b => inferInstanceAs (Decidable (a.1 ≤ b.1))

instance : IsTotal (String × Value) keyLe :=
  ⟨fun a b => le_total a.1 b.1⟩

instance : IsTrans (String × Value) keyLe :=
  ⟨fun _ _ _ h h' => le_trans h h'⟩

mutual

/-- Canonical form of a value under `json.dumps(..., sort_keys=True)`:
object keys are sorted recursively, everything else is kept as is. -/
def canonValue : Value → Value
  | .vNull => .vNull
  | .vBool b => .vBool b
  | .vInt n => .vInt n
  | .vStr s => .vStr s
  | .vList xs => .vList (canonList xs)
  | .vObj fs => .vObj (List.insertionSort keyLe (canonFields fs))

/-- Canonicalize every element of a JSON array. -/
def canonList : List Value → List Value
  | [] => []
  | x :: xs => canonValue x :: canonList xs

/-- Canonicalize every value of a JSON object. -/
def canonFields : List (String × Value) → List (String × Value)
  | [] => []
  | (k, v) :: fs => (k, canonValue v) :: canonFields fs

end

mutual

/-- `json.dumps(v, separators=(",", ":"), ensure_ascii=False)`
(string escaping omitted, see the header comment). -/
def serializeValue : Value → String
  | .vNull => "null"
  | .vBool true => "true"
  | .vBool false => "false"
  | .vInt n => toString n
  | .vStr s => "\"" ++ s ++ "\""
  | .vList xs => "[" ++ serializeList xs ++ "]"
  | .vObj fs => "\x7b" ++ serializeFields fs ++ "\x7d"

def serializeList : List Value → String
  | [] => ""
  | [x] => serializeValue x
  | x :: xs => serializeValue x ++ "," ++ serializeList xs

def serializeFields : List (String × Value) → String
  | [] => ""
  | [(k, v)] => "\"" ++ k ++ "\":" ++ serializeValue v
  | (k, v) :: fs => "\"" ++ k ++ "\":" ++ serializeValue v ++ "," ++ serializeFields fs

end

/-- The canonical JSON dump of a payload:
`json.dumps(payload or {}, sort_keys=True, separators=(",", ":"), ensure_ascii=False)`. -/
def canonDump (p : Payload) : String :=
  serializeValue (canonValue (.vObj p))

/-- `inferences._dedupe_key`: the string
`f"{child_id or 'none'}::{inference_type}::{payload_hash}"` where
`payload_hash` is the SHA-256 hex digest of `canonDump payload`,
modelled injectively by `canonDump payload` itself.  `child_id or
'none'` uses Python truthiness, so `child_id = 0` also yields
`"none"`. -/
def dedupeKey (childId : Option Int) (inferenceType : String) (payload : Payload) : String :=
  let childPart :=
    match childId with
    | some n => if n = 0 then "none" else toString n
    | none => "none"
  childPart ++ "::" ++ inferenceType ++ "::" ++ canonDump payload

/-- `main._dedupe_key_for_inference`: the SHA-256 hex digest of
`json.dumps({"child_id": .., "payload": .., "type": ..}, sort_keys=True,
separators=(",", ":"))`, modelled injectively by the canonical dump
itself. -/
def dedupeKeyForInference (childId : Option String) (inferenceType : String)
    (payload : Payload) : String :=
  serializeValue (canonValue (.vObj
    [("child_id", match childId with | some s => .vStr s | none => .vNull),
     ("payload", .vObj payload),
     ("type", .vStr inferenceType)]))

/-! ### Inference lifecycle store (`apps/api/app/inferences.py`, sqlite) -/

/-- A row of the `inferences` table (`Inference` pydantic model;
`status` is a bare string in the source, per `InferenceStatus(str, Enum)`).
`dedupeKey` is nullable because `_row_to_inference` guards for legacy
rows without the column. -/
structure Inference where
  id : Nat
  childId : Option Int
  userId : Option Int
  inferenceType : String
  payload : Payload
  confidence : ℚ
  status : String
  source : Option String
  createdAt : Int
  updatedAt : Int
  expiresAt : Option Int
  dedupeKey : Option String
  lastPromptedAt : Option Int

/-- `CreateInferencePayload` (defaults: confidence `0.5`,
status `"pending"`). -/
structure CreateInferencePayload where
  childId : Option Int := none
  userId : Option Int := none
  inferenceType : String
  payload : Payload := []
  confidence : ℚ := 0.5
  status : String := "pending"
  source : Option String := none
  expiresAt : Option Int := none

/-- The `inferences` table. -/
abbrev InfDB := List Inference

/-- `SELECT * FROM inferences WHERE id = ?` (raises `ValueError` on a
miss in the source; modelled as `Option`). -/
def getInference (db : InfDB) (id : Nat) : Option Inference :=
  db.find? (fun r => r.id == id)

/-- `SELECT * FROM inferences WHERE dedupe_key = ? LIMIT 1`
(`NULL = x` is false in SQL, matching `Option` equality against
`some`). -/
def getInferenceByDedupeKey (db : InfDB) (dk : String) : Option Inference :=
  db.find? (fun r => r.dedupeKey == some dk)

/-- `cursor.lastrowid` for a fresh insert. -/
def freshInferenceId (db : InfDB) : Nat :=
  db.foldr (fun r acc => max r.id acc) 0 + 1

/-- `create_inference`: resolve-or-create by dedupe key.  On a hit the
existing row is returned unchanged (even if rejected) and nothing is
written; otherwise a new row is inserted with `created_at = updated_at
= now` and re-read by id. -/
def createInference (db : InfDB) (data : CreateInferencePayload) (now : Int) :
    Option (Inference × InfDB) :=
  let dk := dedupeKey data.childId data.inferenceType data.payload
  match getInferenceByDedupeKey db dk with
  | some existing => some (existing, db)
  | none =>
      let row : Inference :=
        { id := freshInferenceId db
          childId := data.childId
          userId := data.userId
          inferenceType := data.inferenceType
          payload := data.payload
          confidence := data.confidence
          status := data.status
          source := data.source
          createdAt := now
          updatedAt := now
          expiresAt := data.expiresAt
          dedupeKey := some dk
          lastPromptedAt := none }
      let db' := db ++ [row]
      (getInference db' row.id).map (fun r => (r, db'))

/-- `ORDER BY created_at DESC` (stable for ties, like the model's
insertion sort). -/
def createdDesc (a b : Inference) : Prop := b.createdAt ≤ a.createdAt

instance : DecidableRel createdDesc :=
  fun a b => inferInstanceAs (Decidable (b.createdAt ≤ a.createdAt))

instance : IsTotal Inference createdDesc :=
  ⟨fun a b => le_total b.createdAt a.createdAt⟩

instance : IsTrans Inference createdDesc :=
  ⟨fun _ _ _ h h' => le_trans h' h⟩

/-- `list_inferences`: optional `child_id` and `status` equality
filters, `ORDER BY created_at DESC LIMIT ?`.  There is no `expires_at`
clause in this query. -/
def listInferences (db : InfDB) (childId : Option Int) (status : Option String)
    (limit : Nat) : List Inference :=
  let rows := db.filter (fun r =>
    (match childId with | some c => r.childId == some c | none => true) &&
    (match status with | some s => r.status == s | none => true))
  (List.insertionSort createdDesc rows).take limit

/-- `update_inference_status`: `UPDATE inferences SET status = ?,
updated_at = ? WHERE id = ?`, then re-read by id.  No transition
validation of any kind is performed. -/
def updateInferenceStatus (db : InfDB) (id : Nat) (status : String) (now : Int) :
    Option (Inference × InfDB) :=
  let db' := db.map (fun r =>
    if r.id = id then { r with status := status, updatedAt := now } else r)
  (getInference db' id).map (fun r => (r, db'))

/-! ### Inference endpoints (`apps/api/app/main.py`, supabase-backed) -/

/-- `get_dtu`: developmental age bracket from age in weeks. -/
def getDtu (childAgeWeeks : Option Int) : String :=
  match childAgeWeeks with
  | none => "unknown"
  | some w => if w ≤ 4 then "newborn" else if w ≤ 26 then "infant" else "older"

/-- `_inference_min_confidence`: minimum confidence per bracket. -/
def inferenceMinConfidence (dtu : String) : ℚ :=
  if dtu = "newborn" then 0.45
  else if dtu = "infant" then 0.5
  else 0.55

/-- `_inference_expiry_days`: inference TTL per bracket. -/
def inferenceExpiryDays (dtu : String) : Int :=
  if dtu = "newborn" then 14
  else if dtu = "infant" then 30
  else 90

/-- A row of the supabase `inferences` table (string ids; nullable
confidence, read back through `row.get("confidence") or 0`). -/
structure SupaInference where
  id : String
  familyId : String
  childId : Option String
  userId : Option String
  inferenceType : String
  payload : Payload
  confidence : Option ℚ
  status : String
  source : Option String
  createdAt : Int
  updatedAt : Int
  expiresAt : Option Int
  dedupeKey : Option String
  lastPromptedAt : Option Int

/-- `ORDER BY created_at DESC` on supabase rows. -/
def createdDescS (a b : SupaInference) : Prop := b.createdAt ≤ a.createdAt

instance : DecidableRel createdDescS :=
  fun a b => inferInstanceAs (Decidable (b.createdAt ≤ a.createdAt))

instance : IsTotal SupaInference createdDescS :=
  ⟨fun a b => le_total b.createdAt a.createdAt⟩

instance : IsTrans SupaInference createdDescS :=
  ⟨fun _ _ _ h h' => le_trans h' h⟩

/-- `GET /api/v1/inferences` (`fetch_inferences`): equality filters on
`family_id`, `child_id` and `status` (the status filter defaults to
`"pending"` via Python `or`, so an empty-string status also defaults),
the expiry view filter `or=(expires_at.is.null,expires_at.gt.now)`,
`created_at` descending order, then a Python-side filter keeping rows
with `(confidence or 0) >= min_confidence`. -/
def fetchInferences (table : List SupaInference) (familyId childId : String)
    (status : Option String) (now : Int) (minConfidence : ℚ) : List SupaInference :=
  let requestedStatus :=
    match status with
    | some s => if s = "" then "pending" else s
    | none => "pending"
  let rows := table.filter (fun r =>
    r.familyId == familyId &&
    r.childId == some childId &&
    r.status == requestedStatus &&
    (match r.expiresAt with | none => true | some t => now < t))
  (List.insertionSort createdDescS rows).filter
    (fun r => minConfidence ≤ r.confidence.getD 0)

/-- `POST /api/v1/inferences/{id}/status` (`change_inference_status`):
unconditionally updates `status` and `updated_at` on the rows matching
id and family, 404s when nothing matched, and returns the first
updated row.  No transition validation of any kind is performed. -/
def changeInferenceStatus (table : List SupaInference) (familyId id : String)
    (status : String) (now : Int) : Except String (SupaInference × List SupaInference) :=
  let hit := fun (r : SupaInference) => r.id == id && r.familyId == familyId
  let patch := fun (r : SupaInference) => { r with status := status, updatedAt := now }
  match table.filter hit with
  | [] => .error "Inference not found"
  | r :: _ => .ok (patch r, table.map (fun s => if hit s then patch s else s))

/-! ### Knowledge item store (`apps/api/app/db.py`, `schemas.py`) -/

/-- `KnowledgeItemType` (`schemas.py`). -/
inductive KnowledgeItemType where
  | explicit
  | inferred
deriving DecidableEq

/-- `KnowledgeItemStatus` (`schemas.py`). -/
inductive KnowledgeItemStatus where
  | active
  | pending
  | rejected
deriving DecidableEq

/-- A row of the `knowledge_items` table (`KnowledgeItem` pydantic
model). -/
structure KnowledgeItem where
  id : Nat
  profileId : Int
  key : String
  type : KnowledgeItemType
  status : KnowledgeItemStatus
  payload : Payload
  createdAt : Int
  updatedAt : Int
  lastPromptedAt : Option Int
  lastPromptedSessionId : Option Int

/-- The `knowledge_items` table. -/
abbrev KDB := List KnowledgeItem

/-- `ORDER BY updated_at DESC` (stable for ties, like the model's
insertion sort). -/
def updatedDesc (a b : KnowledgeItem) : Prop := b.updatedAt ≤ a.updatedAt

instance : DecidableRel updatedDesc :=
  fun a b => inferInstanceAs (Decidable (b.updatedAt ≤ a.updatedAt))

instance : IsTotal KnowledgeItem updatedDesc :=
  ⟨fun a b => le_total b.updatedAt a.updatedAt⟩

instance : IsTrans KnowledgeItem updatedDesc :=
  ⟨fun _ _ _ h h' => le_trans h' h⟩

/-- `SELECT * FROM knowledge_items WHERE id = ?`. -/
def getKnowledgeItem (db : KDB) (id : Nat) : Option KnowledgeItem :=
  db.find? (fun i => i.id == id)

/-- `find_knowledge_item`: `WHERE profile_id = ? AND key = ?
ORDER BY updated_at DESC LIMIT 1`. -/
def findKnowledgeItem (db : KDB) (profileId : Int) (key : String) :
    Option KnowledgeItem :=
  (List.insertionSort updatedDesc
    (db.filter (fun i => i.profileId == profileId && i.key == key))).head?

/-- `list_knowledge_items`: `WHERE profile_id = ?` with an optional
status filter, `ORDER BY updated_at DESC LIMIT ?` (default 50). -/
def listKnowledgeItems (db : KDB) (profileId : Int)
    (status : Option KnowledgeItemStatus) (limit : Nat) : List KnowledgeItem :=
  let rows := db.filter (fun i =>
    i.profileId == profileId &&
    (match status with | some s => i.status == s | none => true))
  (List.insertionSort updatedDesc rows).take limit

/-- `cursor.lastrowid` for a fresh insert. -/
def freshKnowledgeId (db : KDB) : Nat :=
  db.foldr (fun r acc => max r.id acc) 0 + 1

/-- `create_knowledge_item`: insert with `created_at = updated_at =
now`, then re-read by id. -/
def createKnowledgeItem (db : KDB) (profileId : Int) (key : String)
    (type : KnowledgeItemType) (status : KnowledgeItemStatus) (payload : Payload)
    (now : Int) : Option (KnowledgeItem × KDB) :=
  let item : KnowledgeItem :=
    { id := freshKnowledgeId db
      profileId := profileId
      key := key
      type := type
      status := status
      payload := payload
      createdAt := now
      updatedAt := now
      lastPromptedAt := none
      lastPromptedSessionId := none }
  let db' := db ++ [item]
  (getKnowledgeItem db' item.id).map (fun i => (i, db'))

/-- The `UPDATE` of `update_knowledge_item_status`. -/
def updStatusDb (db : KDB) (id : Nat) (status : KnowledgeItemStatus) (now : Int) : KDB :=
  db.map (fun i =>
    if i.id = id then { i with status := status, updatedAt := now } else i)

/-- `update_knowledge_item_status`: update, then re-read by id. -/
def updateKnowledgeItemStatus (db : KDB) (id : Nat) (status : KnowledgeItemStatus)
    (now : Int) : Option (KnowledgeItem × KDB) :=
  let db' := updStatusDb db id status now
  (getKnowledgeItem db' id).map (fun i => (i, db'))

/-- The `UPDATE` of `update_knowledge_item_payload` (the status column
is only touched when a status argument is supplied). -/
def updPayloadDb (db : KDB) (id : Nat) (payload : Payload)
    (status : Option KnowledgeItemStatus) (now : Int) : KDB :=
  db.map (fun i =>
    if i.id = id then
      { i with payload := payload, status := status.getD i.status, updatedAt := now }
    else i)

/-- `update_knowledge_item_payload`: update, then re-read by id. -/
def updateKnowledgeItemPayload (db : KDB) (id : Nat) (payload : Payload)
    (status : Option KnowledgeItemStatus) (now : Int) : Option (KnowledgeItem × KDB) :=
  let db' := updPayloadDb db id payload status now
  (getKnowledgeItem db' id).map (fun i => (i, db'))

/-- The per-item guard of the `_reject_inferred_knowledge` loop. -/
def rejectCond (key : String) (item : KnowledgeItem) : Bool :=
  item.key == key && item.type == KnowledgeItemType.inferred &&
    item.status == KnowledgeItemStatus.active

/-- One iteration of the `_reject_inferred_knowledge` loop: the guarded
`update_knowledge_item_status(item.id, rejected)`. -/
def rejectStep (key : String) (now : Int) (acc : KDB) (item : KnowledgeItem) : KDB :=
  if rejectCond key item then updStatusDb acc item.id .rejected now else acc

/-- `_reject_inferred_knowledge`: walk `list_knowledge_items(profile_id)`
(default limit 50, no status filter) and set every active inferred item
with the key to rejected. -/
def rejectInferredKnowledge (db : KDB) (profileId : Int) (key : String) (now : Int) : KDB :=
  (listKnowledgeItems db profileId none 50).foldl (rejectStep key now) db

/-- `set_explicit_knowledge`: if the most-recently-updated item for
(profile, key) exists and has type explicit, update its payload and
force it active; otherwise reject active inferred items for the key and
insert a fresh explicit/active item.  (The source takes a fresh
`utcnow()` inside each helper; the model threads a single `now`.) -/
def setExplicitKnowledge (db : KDB) (profileId : Int) (key : String)
    (payload : Payload) (now : Int) : Option (KnowledgeItem × KDB) :=
  let existing := findKnowledgeItem db profileId key
  match existing with
  | some e =>
      if e.type = KnowledgeItemType.explicit then
        updateKnowledgeItemPayload db e.id payload (some .active) now
      else
        let db1 := rejectInferredKnowledge db profileId key now
        createKnowledgeItem db1 profileId key .explicit .active payload now
  | none =>
      let db1 := rejectInferredKnowledge db profileId key now
      createKnowledgeItem db1 profileId key .explicit .active payload now

/-! ### Merge engine (`apps/api/app/inferences.py`) -/

/-- `payload.get(k) or []` for a list-valued field.  (A truthy non-list
value would make the Python merge helpers raise; the fields read this
way hold JSON arrays throughout the repository.) -/
def getListField (p : Payload) (k : String) : List Value :=
  match payloadLookup p k with
  | some (.vList xs) => xs
  | _ => []

/-- `payload.get(k)` when the caller tests `is not None`. -/
def getNonNull (p : Payload) (k : String) : Option Value :=
  match payloadLookup p k with
  | some .vNull => none
  | some v => some v
  | none => none

/-- `_merge_unique`: keep the base order, append unseen truthy values
in first-seen order (`if value and value not in seen`). -/
def mergeUnique (base additions : List Value) : List Value :=
  additions.foldl
    (fun result v =>
      if v.truthy && !(result.any (fun w => Value.beq w v)) then result ++ [v]
      else result)
    base

/-- `_merge_sources`: a fixed joined label when both payloads carry a
truthy `source` that differs, otherwise Python `or`-chain fallback. -/
def mergeSources (existing incoming : Payload) : Value :=
  let existingSrc := payloadLookup existing "source"
  let incomingSrc := payloadLookup incoming "source"
  if optTruthy existingSrc && optTruthy incomingSrc &&
      !(Value.beq (existingSrc.getD .vNull) (incomingSrc.getD .vNull)) then
    .vStr "chat+settings"
  else if optTruthy incomingSrc then incomingSrc.getD .vNull
  else if optTruthy existingSrc then existingSrc.getD .vNull
  else .vStr "chat"

/-- `_merge_activity_preferences`: returns a fresh three-field dict. -/
def mergeActivityPreferences (existing incoming : Payload) : Payload :=
  [("favorite_activities",
    .vList (mergeUnique (getListField existing "favorite_activities")
      (getListField incoming "favorite_activities"))),
   ("tags", .vList (mergeUnique (getListField existing "tags")
      (getListField incoming "tags"))),
   ("source", (payloadLookup incoming "source").getD (.vStr "chat"))]

/-- `_merge_milestone_profile`: copy, overwrite with truthy incoming
values, then `setdefault("source", incoming.get("source", "chat"))`. -/
def mergeMilestoneProfile (existing incoming : Payload) : Payload :=
  let merged := incoming.foldl
    (fun m kv => if kv.2.truthy then dictInsert m kv.1 kv.2 else m)
    existing
  if merged.any (fun kv => kv.1 == "source") then merged
  else merged ++ [("source", (payloadLookup incoming "source").getD (.vStr "chat"))]

/-- `_merge_prematurity`: last-non-null wins on the three scalar
fields, plus source reconciliation. -/
def mergePrematurity (existing incoming : Payload) : Payload :=
  let merged := ["is_premature", "gestational_age_weeks", "weeks_early"].foldl
    (fun m k =>
      match getNonNull incoming k with
      | some v => dictInsert m k v
      | none => m)
    existing
  dictInsert merged "source" (mergeSources existing incoming)

/-- `place.get("name")`/`place.get("type")` of a structured list entry
(the `places` lists hold JSON objects throughout the repository). -/
def placeKeyOf (v : Value) : Option Value × Option Value :=
  match v with
  | .vObj fs => (payloadLookup fs "name", payloadLookup fs "type")
  | _ => (none, none)

/-- Python `==` on the `(name, type)` tuples of `_merge_places`. -/
def placeKeyBeq (a b : Option Value × Option Value) : Bool :=
  (match a.1, b.1 with
   | some x, some y => Value.beq x y
   | none, none => true
   | _, _ => false) &&
  (match a.2, b.2 with
   | some x, some y => Value.beq x y
   | none, none => true
   | _, _ => false)

/-- `_merge_places`: append places whose `(name, type)` pair was not
seen among the existing named places or earlier additions. -/
def mergePlaces (existing incoming : Payload) : Payload :=
  let mergedPlaces := getListField existing "places"
  let seen := (mergedPlaces.filter (fun p => optTruthy (placeKeyOf p).1)).map placeKeyOf
  let step := fun (acc : List Value × List (Option Value × Option Value)) place =>
    let key := placeKeyOf place
    if acc.2.any (fun s => placeKeyBeq s key) then acc
    else (acc.1 ++ [place], acc.2 ++ [key])
  let finalPlaces := ((getListField incoming "places").foldl step (mergedPlaces, seen)).1
  dictInsert (dictInsert existing "places" (.vList finalPlaces)) "source"
    (mergeSources existing incoming)

/-- `_merge_family_diet`: unique-union on the three list fields, plus
source reconciliation. -/
def mergeFamilyDiet (existing incoming : Payload) : Payload :=
  let m := dictInsert existing "diet_patterns"
    (.vList (mergeUnique (getListField existing "diet_patterns")
      (getListField incoming "diet_patterns")))
  let m := dictInsert m "avoid_ingredients"
    (.vList (mergeUnique (getListField existing "avoid_ingredients")
      (getListField incoming "avoid_ingredients")))
  let m := dictInsert m "allergies"
    (.vList (mergeUnique (getListField existing "allergies")
      (getListField incoming "allergies")))
  dictInsert m "source" (mergeSources existing incoming)

/-- `_merge_child_solids`: last-non-null wins on the scalar fields,
unique-union on the list fields, plus source reconciliation. -/
def mergeChildSolids (existing incoming : Payload) : Payload :=
  let m := ["solids_started", "approach", "age_started_months"].foldl
    (fun m k =>
      match getNonNull incoming k with
      | some v => dictInsert m k v
      | none => m)
    existing
  let m := dictInsert m "favorite_foods"
    (.vList (mergeUnique (getListField existing "favorite_foods")
      (getListField incoming "favorite_foods")))
  let m := dictInsert m "disliked_foods"
    (.vList (mergeUnique (getListField existing "disliked_foods")
      (getListField incoming "disliked_foods")))
  let m := dictInsert m "allergens_introduced"
    (.vList (mergeUnique (getListField existing "allergens_introduced")
      (getListField incoming "allergens_introduced")))
  dictInsert m "source" (mergeSources existing incoming)

/-- `_MERGE_HANDLERS.get(key)`. -/
def mergeHandlers (key : String) : Option (Payload → Payload → Payload) :=
  if key = "child_activity_preferences" then some mergeActivityPreferences
  else if key = "child_milestone_profile" then some mergeMilestoneProfile
  else if key = "child_prematurity" then some mergePrematurity
  else if key = "places_of_interest" then some mergePlaces
  else if key = "family_diet" then some mergeFamilyDiet
  else if key = "child_solids_profile" then some mergeChildSolids
  else none

/-- `_persist_pending_knowledge`: merge into the latest non-rejected
item for the key (payload only, status untouched), or create a fresh
pending/inferred item, embedding the `_dedupe_key` back-reference into
the payload when a truthy dedupe key is supplied. -/
def persistPendingKnowledge (db : KDB) (profileId : Option Int) (key : String)
    (payload : Payload) (dk : Option String) (now : Int) : KDB :=
  match profileId with
  | none => db
  | some pid =>
      let existing := findKnowledgeItem db pid key
      let mergeFn := mergeHandlers key
      let isLiveExisting :=
        match existing with
        | some e => e.status != KnowledgeItemStatus.rejected
        | none => false
      if isLiveExisting then
        match existing, mergeFn with
        | some e, some f => updPayloadDb db e.id (f e.payload payload) none now
        | _, _ => db
      else
        let finalPayload :=
          match mergeFn, existing with
          | some f, some e => f e.payload payload
          | _, _ => payload
        let finalPayload :=
          match dk with
          | some k => if k ≠ "" then dictInsert finalPayload "_dedupe_key" (.vStr k)
                      else finalPayload
          | none => finalPayload
        match createKnowledgeItem db pid key .inferred .pending finalPayload now with
        | some (_, db') => db'
        | none => db

/-! ### Prompt eligibility scheduler (`apps/api/app/knowledge_utils.py`) -/

/-- One entry of the `inference_lookup` dict passed to
`filter_pending_for_prompt` (keys read with `.get`, defaulting to
`None` / `0` / `False` as in the source). -/
structure InferenceMeta where
  status : Option String := none
  confidence : Option ℚ := none
  lastPromptedAt : Option Int := none
  relatedToMessage : Bool := false

/-- `inference_lookup.get((item.payload or {}).get("_dedupe_key"))`:
the payload value is compared against the dict's string keys with
Python `==`. -/
def metaFor (lookup : Option (List (String × InferenceMeta))) (item : KnowledgeItem) :
    Option InferenceMeta :=
  match lookup, payloadLookup item.payload "_dedupe_key" with
  | some entries, some dkv =>
      (entries.find? (fun kv => Value.beq (.vStr kv.1) dkv)).map (·.2)
  | _, _ => none

/-- The lookup entry's skip on a rejected originating inference. -/
def metaRejected (meta : Option InferenceMeta) : Bool :=
  match meta with
  | some m => m.status == some "rejected"
  | none => false

/-- The lookup entry's cooldown skip:
`last_prompted_at and now - last_prompted_at < window`. -/
def metaCooldownBlocked (now window : Int) (meta : Option InferenceMeta) : Bool :=
  match meta with
  | some m =>
      match m.lastPromptedAt with
      | some t => now - t < window
      | none => false
  | none => false

/-- The lookup entry's confidence skip:
`meta.get("confidence", 0) < threshold and not related_to_message`. -/
def confidenceBlocked (threshold : ℚ) (meta : Option InferenceMeta) : Bool :=
  match meta with
  | some m => m.confidence.getD 0 < threshold && !m.relatedToMessage
  | none => false

/-- The item's own cooldown skip on `item.last_prompted_at` (the
source's `fromisoformat` parse is modelled as always succeeding, since
timestamps are integers here). -/
def ownCooldownBlocked (now window : Int) (item : KnowledgeItem) : Bool :=
  match item.lastPromptedAt with
  | some t => now - t < window
  | none => false

/-- All the per-item skip conditions of the loop body of
`filter_pending_for_prompt`, in source order. -/
def isEligible (now window : Int) (threshold : ℚ)
    (lookup : Option (List (String × InferenceMeta))) (item : KnowledgeItem) : Bool :=
  let meta := metaFor lookup item
  item.status == KnowledgeItemStatus.pending &&
  !metaRejected meta &&
  !metaCooldownBlocked now window meta &&
  !confidenceBlocked threshold meta &&
  !ownCooldownBlocked now window item

/-- The collection loop: append eligible items, breaking once
`max_prompts and len(eligible) >= max_prompts` (so `max_prompts = 0`
disables the cap, by Python truthiness). -/
def filterPendingAux (now window : Int) (threshold : ℚ)
    (lookup : Option (List (String × InferenceMeta))) (maxPrompts : Nat) :
    List KnowledgeItem → Nat → List KnowledgeItem
  | [], _ => []
  | item :: rest, count =>
      if isEligible now window threshold lookup item then
        if maxPrompts ≠ 0 && count + 1 ≥ maxPrompts then [item]
        else item :: filterPendingAux now window threshold lookup maxPrompts rest (count + 1)
      else filterPendingAux now window threshold lookup maxPrompts rest count

/-- `filter_pending_for_prompt` (the `session_id` argument is accepted
and never used by the source; `now = datetime.utcnow()` is a
parameter here; the cooldown window is `cooldown_hours` hours). -/
def filterPendingForPrompt (pending : List KnowledgeItem) (_sessionId : Option Int)
    (cooldownHours : Int) (maxPrompts : Nat)
    (inferenceLookup : Option (List (String × InferenceMeta)))
    (confidenceThreshold : ℚ) (now : Int) : List KnowledgeItem :=
  filterPendingAux now (cooldownHours * 3600) confidenceThreshold inferenceLookup
    maxPrompts pending 0

/-! ### Concrete fixtures used by witnesses and counterexamples -/

/-- A stored, already-rejected inference row (the shape
`detect_knowledge_inferences` produces for combo feeding). -/
def exRejectedInference : Inference :=
  { id := 1
    childId := some 1
    userId := none
    inferenceType := "feeding_structure"
    payload := [("structure", .vStr "combo")]
    confidence := 0.5
    status := "rejected"
    source := some "text_heuristic"
    createdAt := 0
    updatedAt := 0
    expiresAt := none
    dedupeKey := some (dedupeKey (some 1) "feeding_structure" [("structure", .vStr "combo")])
    lastPromptedAt := none }

/-- The matching candidate for `exRejectedInference`. -/
def exCandidate : CreateInferencePayload :=
  { childId := some 1
    inferenceType := "feeding_structure"
    payload := [("structure", .vStr "combo")] }

/-- An explicit active knowledge item that is not the most recently
updated row for its key. -/
def exStaleExplicit : KnowledgeItem :=
  { id := 1
    profileId := 1
    key := "care_framework"
    type := .explicit
    status := .active
    payload := [("v", .vInt 1)]
    createdAt := 0
    updatedAt := 1
    lastPromptedAt := none
    lastPromptedSessionId := none }

/-- A fresher inferred active item for the same key. -/
def exFreshInferred : KnowledgeItem :=
  { id := 2
    profileId := 1
    key := "care_framework"
    type := .inferred
    status := .active
    payload := []
    createdAt := 0
    updatedAt := 2
    lastPromptedAt := none
    lastPromptedSessionId := none }

/-- A knowledge table where an older explicit item coexists with a
fresher inferred item for the same key. -/
def exC3Db : KDB := [exStaleExplicit, exFreshInferred]

/-- A pending sqlite inference row whose `expires_at` (10) has passed
at time 100. -/
def exExpiredPending : Inference :=
  { id := 1
    childId := some 1
    userId := none
    inferenceType := "care_framework"
    payload := []
    confidence := 0.9
    status := "pending"
    source := none
    createdAt := 0
    updatedAt := 0
    expiresAt := some 10
    dedupeKey := some "dk"
    lastPromptedAt := none }

/-- A pending supabase inference row that has not expired at time 100. -/
def exSupaPending : SupaInference :=
  { id := "i1"
    familyId := "f"
    childId := some "c"
    userId := none
    inferenceType := "care_framework"
    payload := []
    confidence := some 0.9
    status := "pending"
    source := none
    createdAt := 0
    updatedAt := 0
    expiresAt := some 200
    dedupeKey := none
    lastPromptedAt := none }

/-- A plain eligible pending knowledge item. -/
def exPendingItem (n : Nat) : KnowledgeItem :=
  { id := n
    profileId := 1
    key := "care_framework"
    type := .inferred
    status := .pending
    payload := []
    createdAt := 0
    updatedAt := 0
    lastPromptedAt := none
    lastPromptedSessionId := none }

/-- A pending item last prompted at time 90 (inside a 12-hour window
ending before time 100). -/
def exCooldownItem : KnowledgeItem :=
  { exPendingItem 9 with lastPromptedAt := some 90 }

/-- A pending item carrying a `_dedupe_key` back-reference. -/
def exDkItem : KnowledgeItem :=
  { exPendingItem 10 with payload := [("_dedupe_key", .vStr "dk-1")] }

/-- A lookup entry with confidence 0.48. -/
def exMeta (related : Bool) : InferenceMeta :=
  { status := some "pending"
    confidence := some 0.48
    lastPromptedAt := none
    relatedToMessage := related }

/-! ### Theorems -/

theorem canonFields_eq_map :
    ∀ l : List (String × Value),
      canonFields l = l.map (fun kv => (kv.1, canonValue kv.2))
  | [] => rfl
  | (k, v) :: fs => by simp [canonFields, canonFields_eq_map fs]

theorem sorted_perm_nodupKeys_eq :
    ∀ (l₁ l₂ : List (String × Value)), l₁.Perm l₂ →
      l₁.Sorted keyLe → l₂.Sorted keyLe → (l₁.map Prod.fst).Nodup → l₁ = l₂
  | [], l₂, hp, _, _, _ => hp.symm.eq_nil.symm
  | a :: t₁, [], hp, _, _, _ => by simpa using hp.eq_nil
  | a :: t₁, b :: t₂, hp, hs₁, hs₂, hnd => by
      obtain ⟨hs₁a, hs₁t⟩ := List.sorted_cons.mp hs₁
      obtain ⟨hs₂a, hs₂t⟩ := List.sorted_cons.mp hs₂
      simp only [List.map_cons, List.nodup_cons] at hnd
      obtain ⟨hfst, hndt⟩ := hnd
      have hb : b ∈ a :: t₁ := hp.symm.subset (List.mem_cons_self b t₂)
      have hab : b = a := by
        rcases List.mem_cons.mp hb with h | hbt
        · exact h
        · have h1 : keyLe a b := hs₁a b hbt
          have ha : a ∈ b :: t₂ := hp.subset (List.mem_cons_self a t₁)
          have hkey : a.1 = b.1 := by
            rcases List.mem_cons.mp ha with h' | hat
            · rw [h']
            · exact le_antisymm h1 (hs₂a a hat)
          have : a.1 ∈ t₁.map Prod.fst := by
            rw [hkey]
            exact List.mem_map_of_mem Prod.fst hbt
          exact absurd this hfst
      subst hab
      rw [sorted_perm_nodupKeys_eq t₁ t₂ hp.cons_inv hs₁t hs₂t hndt]

theorem canonObj_perm_eq (P P' : Payload) (hp : P.Perm P')
    (hnd : (P.map Prod.fst).Nodup) :
    canonValue (.vObj P) = canonValue (.vObj P') := by
  have f : String × Value → String × Value := fun kv => (kv.1, canonValue kv.2)
  simp only [canonValue, canonFields_eq_map]
  congr 1
  apply sorted_perm_nodupKeys_eq
  · exact (List.perm_insertionSort keyLe _).trans
      ((hp.map _).trans (List.perm_insertionSort keyLe _).symm)
  · exact List.sorted_insertionSort keyLe _
  · exact List.sorted_insertionSort keyLe _
  · have hperm := (List.perm_insertionSort keyLe
      (P.map (fun kv => (kv.1, canonValue kv.2)))).map Prod.fst
    rw [(hperm.nodup_iff)]
    simpa [List.map_map, Function.comp] using hnd

/-- C4: for every subject scope, fact type, and payloads P and P' that
contain the same key-value pairs inserted in different key orders, both
fingerprint functions (`_dedupe_key` in `inferences.py` and
`_dedupe_key_for_inference` in `main.py`) yield equal dedupe keys. -/
theorem fingerprint_key_order_invariant (childId : Option Int)
    (childIdS : Option String) (t : String) (P P' : Payload)
    (hp : P.Perm P') (hnd : (P.map Prod.fst).Nodup) :
    dedupeKey childId t P = dedupeKey childId t P' ∧
    dedupeKeyForInference childIdS t P = dedupeKeyForInference childIdS t P' := by
  have hobj := canonObj_perm_eq P P' hp hnd
  constructor
  · simp only [dedupeKey, canonDump, hobj]
  · have h2 :
        canonFields [("child_id", match childIdS with | some s => .vStr s | none => .vNull),
          ("payload", .vObj P), ("type", .vStr t)] =
        canonFields [("child_id", match childIdS with | some s => .vStr s | none => .vNull),
          ("payload", .vObj P'), ("type", .vStr t)] := by
      simp only [canonFields]
      rw [hobj]
    simp only [dedupeKeyForInference, canonValue, h2]

/-- Witness for C4 at a concrete pair of reordered payloads. -/
theorem fingerprint_key_order_invariant_witness :
    (([("a", Value.vInt 1), ("b", Value.vInt 2)] : Payload).Perm
        [("b", Value.vInt 2), ("a", Value.vInt 1)]) ∧
    ((([("a", Value.vInt 1), ("b", Value.vInt 2)] : Payload).map Prod.fst).Nodup) ∧
    (dedupeKey (some 7) "care_framework" [("a", Value.vInt 1), ("b", Value.vInt 2)] =
      dedupeKey (some 7) "care_framework" [("b", Value.vInt 2), ("a", Value.vInt 1)] ∧
     dedupeKeyForInference (some "c1") "care_framework"
        [("a", Value.vInt 1), ("b", Value.vInt 2)] =
      dedupeKeyForInference (some "c1") "care_framework"
        [("b", Value.vInt 2), ("a", Value.vInt 1)]) :=
  ⟨List.Perm.swap _ _ _, by decide,
    fingerprint_key_order_invariant (some 7) (some "c1") "care_framework" _ _
      (List.Perm.swap _ _ _) (by decide)⟩

theorem filterPendingAux_eq_take (now window : Int) (thr : ℚ)
    (lookup : Option (List (String × InferenceMeta))) (maxPrompts : Nat) :
    ∀ (items : List KnowledgeItem) (count : Nat), count < maxPrompts →
      filterPendingAux now window thr lookup maxPrompts items count =
        (items.filter (isEligible now window thr lookup)).take (maxPrompts - count)
  | [], count, _ => by simp [filterPendingAux]
  | item :: rest, count, h => by
      by_cases he : isEligible now window thr lookup item
      · by_cases hcap : count + 1 ≥ maxPrompts
        · have hmp : maxPrompts = count + 1 := le_antisymm hcap h
          have hz : maxPrompts ≠ 0 := by omega
          simp [filterPendingAux, he, hcap, hz, List.filter_cons, hmp]
        · push_neg at hcap
          have ih := filterPendingAux_eq_take now window thr lookup maxPrompts rest
            (count + 1) hcap
          have hcap' : ¬ (count + 1 ≥ maxPrompts) := by omega
          simp only [filterPendingAux, he, if_true, List.filter_cons]
          rw [if_neg (by simp [hcap'])]
          rw [ih, show maxPrompts - count = (maxPrompts - (count + 1)) + 1 from by omega]
          simp [he, List.take_succ_cons]
      · have ih := filterPendingAux_eq_take now window thr lookup maxPrompts rest count h
        simp [filterPendingAux, he, List.filter_cons, ih]

theorem filterPendingForPrompt_eq_take (pending : List KnowledgeItem)
    (sid : Option Int) (ch : Int) (mp : Nat)
    (lookup : Option (List (String × InferenceMeta))) (thr : ℚ) (now : Int)
    (h : 1 ≤ mp) :
    filterPendingForPrompt pending sid ch mp lookup thr now =
      (pending.filter (isEligible now (ch * 3600) thr lookup)).take mp := by
  have h0 : 0 < mp := h
  simpa [filterPendingForPrompt] using
    filterPendingAux_eq_take now (ch * 3600) thr lookup mp pending 0 h0

/-- C7: with at least `max_prompts >= 1` eligible pending items in the
input, `filter_pending_for_prompt` returns exactly `max_prompts` items,
and they are the first eligible items in the iteration order of the
input list (the prefix of the eligibility filter). -/
theorem cap_enforcement (pending : List KnowledgeItem) (sid : Option Int)
    (ch : Int) (mp : Nat) (lookup : Option (List (String × InferenceMeta)))
    (thr : ℚ) (now : Int) (h1 : 1 ≤ mp)
    (h2 : mp ≤ (pending.filter (isEligible now (ch * 3600) thr lookup)).length) :
    filterPendingForPrompt pending sid ch mp lookup thr now =
      (pending.filter (isEligible now (ch * 3600) thr lookup)).take mp ∧
    (filterPendingForPrompt pending sid ch mp lookup thr now).length = mp := by
  have heq := filterPendingForPrompt_eq_take pending sid ch mp lookup thr now h1
  refine ⟨heq, ?_⟩
  rw [heq, List.length_take]
  omega

/-- Witness for C7: five eligible pending items and `max_prompts = 1`
yield exactly the first item. -/
theorem cap_enforcement_witness :
    (1 ≤ ([exPendingItem 1, exPendingItem 2, exPendingItem 3, exPendingItem 4,
        exPendingItem 5].filter (isEligible 100 (12 * 3600) 0.6 none)).length) ∧
    filterPendingForPrompt
        [exPendingItem 1, exPendingItem 2, exPendingItem 3, exPendingItem 4,
          exPendingItem 5] (some 1) 12 1 none 0.6 100 = [exPendingItem 1] := by
  have h := cap_enforcement
    [exPendingItem 1, exPendingItem 2, exPendingItem 3, exPendingItem 4,
      exPendingItem 5] (some 1) 12 1 none 0.6 100 (by decide) (by decide)
  exact ⟨by decide, by rw [h.1]; rfl⟩

theorem mem_filterPendingAux (now window : Int) (thr : ℚ)
    (lookup : Option (List (String × InferenceMeta))) (maxPrompts : Nat) :
    ∀ (items : List KnowledgeItem) (count : Nat) (item : KnowledgeItem),
      item ∈ filterPendingAux now window thr lookup maxPrompts items count →
      isEligible now window thr lookup item = true
  | [], _, _, hmem => by simp [filterPendingAux] at hmem
  | i :: rest, count, item, hmem => by
      by_cases he : isEligible now window thr lookup i
      · by_cases hcap : (maxPrompts ≠ 0 && count + 1 ≥ maxPrompts : Bool)
        · simp only [filterPendingAux, he, if_true, if_pos hcap,
            List.mem_singleton] at hmem
          subst hmem; exact he
        · simp only [filterPendingAux, he, if_true, if_neg hcap,
            List.mem_cons] at hmem
          rcases hmem with rfl | hmem
          · exact he
          · exact mem_filterPendingAux now window thr lookup maxPrompts rest
              (count + 1) item hmem
      · simp only [filterPendingAux, if_neg he] at hmem
        exact mem_filterPendingAux now window thr lookup maxPrompts rest count item hmem

/-- C6: cooldown enforcement.  First conjunct: every item returned by
`filter_pending_for_prompt` has neither an in-window lookup
`last_prompted_at` nor an in-window own `last_prompted_at` (so an item
inside either cooldown window is never returned, however eligible
otherwise).  Second conjunct: once both cooldown timestamps are elapsed
or absent, eligibility reduces to the remaining checks only, so the
cooldown no longer excludes the item. -/
theorem cooldown_enforcement (pending : List KnowledgeItem) (sid : Option Int)
    (ch : Int) (mp : Nat) (lookup : Option (List (String × InferenceMeta)))
    (thr : ℚ) (now : Int) :
    (∀ item ∈ filterPendingForPrompt pending sid ch mp lookup thr now,
      metaCooldownBlocked now (ch * 3600) (metaFor lookup item) = false ∧
      ownCooldownBlocked now (ch * 3600) item = false) ∧
    (∀ item : KnowledgeItem,
      metaCooldownBlocked now (ch * 3600) (metaFor lookup item) = false →
      ownCooldownBlocked now (ch * 3600) item = false →
      isEligible now (ch * 3600) thr lookup item =
        (item.status == KnowledgeItemStatus.pending &&
         !metaRejected (metaFor lookup item) &&
         !confidenceBlocked thr (metaFor lookup item))) := by
  constructor
  · intro item hmem
    have he := mem_filterPendingAux now (ch * 3600) thr lookup mp pending 0 item hmem
    simp only [isEligible, Bool.and_eq_true, Bool.not_eq_true'] at he
    exact ⟨he.1.1.2, he.2⟩
  · intro item h1 h2
    simp [isEligible, h1, h2]

/-- Witness for C6: an item inside its own 12-hour cooldown window is
dropped, and with the window elapsed the cooldown check contributes
nothing to eligibility. -/
theorem cooldown_enforcement_witness :
    (exCooldownItem ∈ filterPendingForPrompt [exCooldownItem] (some 1) 12 1 none 0.6 100 →
      metaCooldownBlocked 100 (12 * 3600) (metaFor none exCooldownItem) = false ∧
      ownCooldownBlocked 100 (12 * 3600) exCooldownItem = false) ∧
    (metaCooldownBlocked 50000 (12 * 3600) (metaFor none exCooldownItem) = false) ∧
    (ownCooldownBlocked 50000 (12 * 3600) exCooldownItem = false) ∧
    isEligible 50000 (12 * 3600) 0.6 none exCooldownItem =
      (exCooldownItem.status == KnowledgeItemStatus.pending &&
       !metaRejected (metaFor none exCooldownItem) &&
       !confidenceBlocked 0.6 (metaFor none exCooldownItem)) :=
  ⟨fun hmem =>
      (cooldown_enforcement [exCooldownItem] (some 1) 12 1 none 0.6 100).1
        exCooldownItem hmem,
    by decide, by decide,
    (cooldown_enforcement [exCooldownItem] (some 1) 12 1 none 0.6 50000).2
      exCooldownItem (by decide) (by decide)⟩

/-- C8: with the age-bracket thresholds of `_inference_min_confidence`
(0.45 / 0.5 / 0.55 for the youngest / middle / oldest bracket), a
pending item whose looked-up confidence is 0.48 passes the confidence
gate under the youngest bracket's threshold, is skipped under the
oldest bracket's threshold when not flagged as relevant to the current
turn, and is included regardless of the threshold when flagged. -/
theorem age_bracket_gating (item : KnowledgeItem) (dk : String)
    (meta : InferenceMeta) (related : Bool) (sid : Option Int) (ch now : Int)
    (hst : item.status = KnowledgeItemStatus.pending)
    (hdk : payloadLookup item.payload "_dedupe_key" = some (.vStr dk))
    (hown : item.lastPromptedAt = none)
    (hconf : meta.confidence = some 0.48)
    (hstatus : meta.status ≠ some "rejected")
    (hlp : meta.lastPromptedAt = none)
    (hrel : meta.relatedToMessage = related) :
    (inferenceMinConfidence (getDtu (some 3)) = 0.45 ∧
     inferenceMinConfidence (getDtu (some 20)) = 0.5 ∧
     inferenceMinConfidence (getDtu (some 30)) = 0.55) ∧
    filterPendingForPrompt [item] sid ch 1 (some [(dk, meta)])
      (inferenceMinConfidence (getDtu (some 3))) now = [item] ∧
    (related = false →
      filterPendingForPrompt [item] sid ch 1 (some [(dk, meta)])
        (inferenceMinConfidence (getDtu (some 30))) now = []) ∧
    (related = true →
      filterPendingForPrompt [item] sid ch 1 (some [(dk, meta)])
        (inferenceMinConfidence (getDtu (some 30))) now = [item]) := by
  have hmeta : metaFor (some [(dk, meta)]) item = some meta := by
    simp [metaFor, hdk, Value.beq]
  have hrej : metaRejected (some meta) = false := by
    simp [metaRejected]
    exact hstatus
  have hmc : metaCooldownBlocked now (ch * 3600) (some meta) = false := by
    simp [metaCooldownBlocked, hlp]
  have hoc : ownCooldownBlocked now (ch * 3600) item = false := by
    simp [ownCooldownBlocked, hown]
  have hyoung : inferenceMinConfidence (getDtu (some 3)) = 0.45 := rfl
  have hold : inferenceMinConfidence (getDtu (some 30)) = 0.55 := rfl
  have hcb1 : confidenceBlocked (inferenceMinConfidence (getDtu (some 3)))
      (some meta) = false := by
    simp [confidenceBlocked, hconf, hyoung]
    intro h
    norm_num at h
  have hcb2 : confidenceBlocked (inferenceMinConfidence (getDtu (some 30)))
      (some meta) = !related := by
    simp [confidenceBlocked, hconf, hold, hrel]
    norm_num
  refine ⟨⟨rfl, rfl, rfl⟩, ?_, ?_, ?_⟩
  · simp [filterPendingForPrompt, filterPendingAux, isEligible, hmeta, hst,
      hrej, hmc, hoc, hcb1]
  · intro hr
    simp [filterPendingForPrompt, filterPendingAux, isEligible, hmeta, hst,
      hrej, hmc, hoc, hcb2, hr]
  · intro hr
    simp [filterPendingForPrompt, filterPendingAux, isEligible, hmeta, hst,
      hrej, hmc, hoc, hcb2, hr]

/-- Witness for C8: the concrete back-referenced item and a 0.48
lookup entry, both unflagged and flagged. -/
theorem age_bracket_gating_witness :
    (filterPendingForPrompt [exDkItem] (some 1) 12 1 (some [("dk-1", exMeta false)])
        (inferenceMinConfidence (getDtu (some 3))) 100 = [exDkItem] ∧
     filterPendingForPrompt [exDkItem] (some 1) 12 1 (some [("dk-1", exMeta false)])
        (inferenceMinConfidence (getDtu (some 30))) 100 = []) ∧
    filterPendingForPrompt [exDkItem] (some 1) 12 1 (some [("dk-1", exMeta true)])
        (inferenceMinConfidence (getDtu (some 30))) 100 = [exDkItem] := by
  have h1 := age_bracket_gating exDkItem "dk-1" (exMeta false) false (some 1) 12 100
    rfl rfl rfl rfl (by decide) rfl rfl
  have h2 := age_bracket_gating exDkItem "dk-1" (exMeta true) true (some 1) 12 100
    rfl rfl rfl rfl (by decide) rfl rfl
  exact ⟨⟨h1.2.1, h1.2.2.1 rfl⟩, h2.2.2.2 rfl⟩

theorem infId_le_fold :
    ∀ (db : InfDB) (r : Inference), r ∈ db →
      r.id ≤ db.foldr (fun r acc => max r.id acc) 0
  | [], r, h => absurd h (List.not_mem_nil r)
  | a :: t, r, h => by
      rcases List.mem_cons.mp h with rfl | ht
      · exact le_max_left _ _
      · exact le_trans (infId_le_fold t r ht) (le_max_right _ _)

theorem infId_lt_fresh (db : InfDB) (r : Inference) (h : r ∈ db) :
    r.id < freshInferenceId db := by
  have := infId_le_fold db r h
  unfold freshInferenceId
  omega

theorem getInference_append_fresh (db : InfDB) (row : Inference)
    (hid : row.id = freshInferenceId db) :
    getInference (db ++ [row]) row.id = some row := by
  unfold getInference
  rw [List.find?_append]
  have h1 : db.find? (fun r => r.id == row.id) = none := by
    refine List.find?_eq_none.mpr (fun x hx => ?_)
    have := infId_lt_fresh db x hx
    simp only [beq_iff_eq]
    omega
  rw [h1]
  simp

theorem createInference_miss (db : InfDB) (data : CreateInferencePayload) (now : Int)
    (hdk : getInferenceByDedupeKey db
      (dedupeKey data.childId data.inferenceType data.payload) = none) :
    ∃ row : Inference, createInference db data now = some (row, db ++ [row]) ∧
      row.dedupeKey = some (dedupeKey data.childId data.inferenceType data.payload) ∧
      row.id = freshInferenceId db ∧ row.status = data.status ∧
      row.payload = data.payload ∧ row.createdAt = now ∧ row.updatedAt = now := by
  refine ⟨{ id := freshInferenceId db
            childId := data.childId
            userId := data.userId
            inferenceType := data.inferenceType
            payload := data.payload
            confidence := data.confidence
            status := data.status
            source := data.source
            createdAt := now
            updatedAt := now
            expiresAt := data.expiresAt
            dedupeKey := some (dedupeKey data.childId data.inferenceType data.payload)
            lastPromptedAt := none }, ?_, rfl, rfl, rfl, rfl, rfl, rfl⟩
  simp only [createInference, hdk]
  rw [getInference_append_fresh db _ rfl]
  rfl

/-- C2: resolve-or-create convergence and sticky rejection.  First
conjunct: whenever a record with the candidate's dedupe key already
exists — whatever its status, including rejected — `create_inference`
returns that record and the table is unchanged (no new pending row).
Second conjunct: a second call with an equal candidate returns the
same record as the first call, again leaving the table unchanged, and
the first call inserted at most one row. -/
theorem dedup_convergence (db : InfDB) (data : CreateInferencePayload)
    (now1 now2 : Int) :
    (∀ e, getInferenceByDedupeKey db
        (dedupeKey data.childId data.inferenceType data.payload) = some e →
      createInference db data now1 = some (e, db)) ∧
    (∀ r1 db1, createInference db data now1 = some (r1, db1) →
      createInference db1 data now2 = some (r1, db1) ∧
      db1.length ≤ db.length + 1) := by
  constructor
  · intro e he
    simp only [createInference, he]
  · intro r1 db1 hc
    cases hdk : getInferenceByDedupeKey db
        (dedupeKey data.childId data.inferenceType data.payload) with
    | some e =>
        simp only [createInference, hdk] at hc
        obtain ⟨rfl, rfl⟩ : e = r1 ∧ db = db1 := by simpa using hc
        exact ⟨by simp only [createInference, hdk], Nat.le_succ _⟩
    | none =>
        obtain ⟨row, hcr, hdkrow, hidrow, -, -, -, -⟩ :=
          createInference_miss db data now1 hdk
        rw [hcr] at hc
        obtain ⟨rfl, rfl⟩ : row = r1 ∧ db ++ [row] = db1 := by simpa using hc
        constructor
        · have h2 : getInferenceByDedupeKey (db ++ [row])
              (dedupeKey data.childId data.inferenceType data.payload) = some row := by
            unfold getInferenceByDedupeKey at hdk ⊢
            rw [List.find?_append, hdk]
            simp [hdkrow]
          simp only [createInference, h2]
        · simp

/-- Witness for C2: re-detecting a candidate whose fingerprint matches
a stored rejected inference returns that rejected row unchanged and
inserts nothing. -/
theorem dedup_convergence_witness :
    (getInferenceByDedupeKey [exRejectedInference]
        (dedupeKey exCandidate.childId exCandidate.inferenceType exCandidate.payload) =
      some exRejectedInference) ∧
    createInference [exRejectedInference] exCandidate 100 =
      some (exRejectedInference, [exRejectedInference]) ∧
    exRejectedInference.status = "rejected" :=
  ⟨rfl,
    (dedup_convergence [exRejectedInference] exCandidate 100 101).1
      exRejectedInference rfl,
    rfl⟩

/-- Counterexample to C1: requesting `"confirmed"` on a stored
`"rejected"` inference succeeds and changes the status — the operation
neither fails with an `InvalidTransition` error (no such error exists
in the code) nor leaves the record unchanged. -/
theorem invalid_transition_unenforced :
    ((updateInferenceStatus [exRejectedInference] 1 "confirmed" 5).map
        (fun p => p.1.status) = some "confirmed") ∧
    exRejectedInference.status = "rejected" ∧
    (some "confirmed" ≠ (some "rejected" : Option String)) :=
  ⟨rfl, rfl, by decide⟩

/-- C1 (amended): the status-transition operations perform no
validation.  `update_inference_status` sets the requested status (and
refreshes `updated_at`) on the addressed record whatever its current
status; the status endpoint `change_inference_status` likewise updates
any matching record to the requested status unconditionally, its only
failure being not-found. -/
theorem status_update_unconditional :
    (∀ (db : InfDB) (id : Nat) (st : String) (now : Int) (r : Inference),
      getInference db id = some r →
      updateInferenceStatus db id st now =
        some ({ r with status := st, updatedAt := now },
          db.map (fun x =>
            if x.id = id then { x with status := st, updatedAt := now } else x))) ∧
    (∀ (table : List SupaInference) (fam id st : String) (now : Int)
        (r : SupaInference),
      r ∈ table → r.id = id → r.familyId = fam →
      ∃ r' table', changeInferenceStatus table fam id st now = .ok (r', table') ∧
        r'.status = st ∧ r'.updatedAt = now) := by
  constructor
  · intro db id st now r hget
    have hfind : db.find? (fun x => x.id == id) = some r := hget
    have hid : r.id = id := by
      have := List.find?_some hfind
      simpa using this
    have hmap : (db.map (fun x =>
          if x.id = id then { x with status := st, updatedAt := now } else x)).find?
            (fun x => x.id == id) =
        some ({ r with status := st, updatedAt := now }) := by
      rw [List.find?_map]
      have hcong : ((fun x : Inference => x.id == id) ∘
          (fun x => if x.id = id then { x with status := st, updatedAt := now } else x)) =
          (fun x : Inference => x.id == id) := by
        funext x
        by_cases h : x.id = id <;> simp [h]
      rw [hcong, hfind]
      simp [hid]
    simp only [updateInferenceStatus, getInference, hmap, Option.map_some]
    rfl
  · intro table fam id st now r hr hid hfam
    have hmem : r ∈ table.filter (fun x => x.id == id && x.familyId == fam) :=
      List.mem_filter.mpr ⟨hr, by simp [hid, hfam]⟩
    cases hfil : table.filter (fun x => x.id == id && x.familyId == fam) with
    | nil => rw [hfil] at hmem; exact absurd hmem (List.not_mem_nil r)
    | cons a l =>
        refine ⟨{ a with status := st, updatedAt := now },
          table.map (fun s =>
            if s.id == id && s.familyId == fam then
              { s with status := st, updatedAt := now }
            else s), ?_, rfl, rfl⟩
        simp only [changeInferenceStatus, hfil]

/-- Witness for C1 (amended): a rejected sqlite row is set to
confirmed, and a pending supabase row is set to rejected. -/
theorem status_update_unconditional_witness :
    (getInference [exRejectedInference] 1 = some exRejectedInference) ∧
    updateInferenceStatus [exRejectedInference] 1 "confirmed" 5 =
      some ({ exRejectedInference with status := "confirmed", updatedAt := 5 },
        [{ exRejectedInference with status := "confirmed", updatedAt := 5 }]) ∧
    (∃ r' table', changeInferenceStatus [exSupaPending] "f" "i1" "rejected" 7 =
        .ok (r', table') ∧ r'.status = "rejected" ∧ r'.updatedAt = 7) := by
  refine ⟨rfl, ?_, ?_⟩
  · have h := status_update_unconditional.1 [exRejectedInference] 1 "confirmed" 5
      exRejectedInference rfl
    rw [h]
    rfl
  · exact status_update_unconditional.2 [exSupaPending] "f" "i1" "rejected" 7
      exSupaPending (List.mem_cons_self _ _) rfl rfl

theorem orderedInsert_map_invariant {α : Type} (r : α → α → Prop) [DecidableRel r]
    (g : α → α) (hr : ∀ a b, r (g a) (g b) ↔ r a b) :
    ∀ (a : α) (l : List α),
      List.orderedInsert r (g a) (l.map g) = (List.orderedInsert r a l).map g
  | a, [] => rfl
  | a, b :: t => by
      by_cases h : r a b
      · simp [List.orderedInsert, (hr a b).mpr h, h]
      · simp only [List.map_cons, List.orderedInsert,
          if_neg (fun hc => h ((hr a b).mp hc)), if_neg h, List.map_cons]
        rw [orderedInsert_map_invariant r g hr a t]

theorem insertionSort_map_invariant {α : Type} (r : α → α → Prop) [DecidableRel r]
    (g : α → α) (hr : ∀ a b, r (g a) (g b) ↔ r a b) :
    ∀ l : List α, List.insertionSort r (l.map g) = (List.insertionSort r l).map g
  | [] => rfl
  | a :: t => by
      simp only [List.map_cons, List.insertionSort]
      rw [insertionSort_map_invariant r g hr t, orderedInsert_map_invariant r g hr]

/-- Counterexample to C5: `list_inferences` applies no `expires_at`
comparison — a pending record whose `expires_at` (10) is long past
(e.g. at wall-clock time 100) is still returned under the pending
status filter, so the cited list operation does not omit expired
records. -/
theorem expiry_view_counterexample :
    exExpiredPending.expiresAt = some 10 ∧ (10 : Int) < 100 ∧
    exExpiredPending.status = "pending" ∧
    listInferences [exExpiredPending] none (some "pending") 50 = [exExpiredPending] :=
  ⟨rfl, by decide, rfl, rfl⟩

/-- C5 (amended): expiry is a view, but the view lives in the HTTP
list endpoint, not in the sqlite helper.  First conjunct: every row
returned by `fetch_inferences` with the default (pending) status
filter is a stored row that is pending and not yet expired at the
query-time clock.  Second conjunct: `get_inference` returns the stored
row itself, unchanged.  Third conjunct: the result of
`list_inferences` is independent of the rows' `expires_at` values —
rewriting that column arbitrarily commutes with the query — so the
sqlite list applies no expiry comparison at all. -/
theorem expiry_is_view :
    (∀ (table : List SupaInference) (fam child : String) (now : Int)
        (minConf : ℚ) (r : SupaInference),
      r ∈ fetchInferences table fam child none now minConf →
      r ∈ table ∧ r.status = "pending" ∧ (∀ t, r.expiresAt = some t → now < t)) ∧
    (∀ (db : InfDB) (id : Nat) (r : Inference),
      getInference db id = some r → r ∈ db) ∧
    (∀ (db : InfDB) (childId : Option Int) (status : Option String) (limit : Nat)
        (f : Inference → Option Int),
      listInferences (db.map (fun x => { x with expiresAt := f x })) childId status limit =
        (listInferences db childId status limit).map
          (fun x => { x with expiresAt := f x })) := by
  refine ⟨?_, ?_, ?_⟩
  · intro table fam child now minConf r hmem
    unfold fetchInferences at hmem
    have h1 := (List.mem_filter.mp hmem).1
    have h2 := (List.perm_insertionSort createdDescS _).subset h1
    have h3 := List.mem_filter.mp h2
    refine ⟨h3.1, ?_, ?_⟩
    · have := h3.2
      simp only [Bool.and_eq_true, beq_iff_eq] at this
      exact this.1.2
    · intro t ht
      have := h3.2
      simp only [Bool.and_eq_true, beq_iff_eq] at this
      have hexp := this.2
      rw [ht] at hexp
      simpa using hexp
  · intro db id r hget
    exact List.mem_of_find?_eq_some hget
  · intro db childId status limit f
    dsimp only [listInferences]
    have hpred : ∀ x : Inference,
        ((fun r : Inference =>
          (match childId with | some c => r.childId == some c | none => true) &&
          (match status with | some s => r.status == s | none => true)) ∘
          (fun x => { x with expiresAt := f x })) x =
        (fun r : Inference =>
          (match childId with | some c => r.childId == some c | none => true) &&
          (match status with | some s => r.status == s | none => true)) x :=
      fun x => rfl
    rw [List.filter_map, List.filter_congr (fun x _ => hpred x),
      insertionSort_map_invariant createdDesc
        (fun x => { x with expiresAt := f x }) (fun a b => Iff.rfl),
      List.map_take]

/-- Witness for C5: the endpoint keeps an unexpired pending row and
reports it unexpired; `get_inference` returns the stored expired row;
and rewriting `expires_at` commutes with `list_inferences` on a
concrete table. -/
theorem expiry_is_view_witness :
    (exSupaPending ∈ [exSupaPending] ∧ exSupaPending.status = "pending" ∧
      (∀ t, exSupaPending.expiresAt = some t → (100 : Int) < t)) ∧
    (exExpiredPending ∈ [exExpiredPending]) ∧
    (listInferences ([exExpiredPending].map (fun x => { x with expiresAt := none }))
        none (some "pending") 50 =
      (listInferences [exExpiredPending] none (some "pending") 50).map
        (fun x => { x with expiresAt := none })) := by
  refine ⟨?_, ?_, ?_⟩
  · refine expiry_is_view.1 [exSupaPending] "f" "c" 100 0.5 exSupaPending ?_
    dsimp only [fetchInferences]
    refine List.mem_filter.mpr ⟨?_, ?_⟩
    · exact List.mem_of_mem_head? (by rfl)
    · simp [exSupaPending]
      norm_num
  · exact expiry_is_view.2.1 [exExpiredPending] 1 exExpiredPending rfl
  · exact expiry_is_view.2.2 [exExpiredPending] none (some "pending") 50 (fun _ => none)

/-- Counterexample to C9: merging payloads whose source tags are
`"a"` and `"b"` yields the fixed label `"chat+settings"`, not the
joined label `"a+b"` of the two tags. -/
theorem merge_sources_counterexample :
    mergeSources [("source", Value.vStr "a")] [("source", Value.vStr "b")] =
      Value.vStr "chat+settings" ∧
    Value.vStr "chat+settings" ≠ Value.vStr "a+b" := by
  refine ⟨rfl, ?_⟩
  intro h
  injection h with h'
  exact absurd h' (by decide)

/-- C9 (amended): when both payloads carry a truthy `source` tag and
the tags differ, `_merge_sources` returns the fixed label
`"chat+settings"` regardless of the tags' contents; when exactly one
payload carries a truthy tag, that tag wins. -/
theorem merge_sources_spec (existing incoming : Payload) :
    (optTruthy (payloadLookup existing "source") = true →
     optTruthy (payloadLookup incoming "source") = true →
     Value.beq ((payloadLookup existing "source").getD .vNull)
       ((payloadLookup incoming "source").getD .vNull) = false →
     mergeSources existing incoming = .vStr "chat+settings") ∧
    (optTruthy (payloadLookup existing "source") = false →
     optTruthy (payloadLookup incoming "source") = true →
     mergeSources existing incoming = (payloadLookup incoming "source").getD .vNull) ∧
    (optTruthy (payloadLookup existing "source") = true →
     optTruthy (payloadLookup incoming "source") = false →
     mergeSources existing incoming = (payloadLookup existing "source").getD .vNull) := by
  refine ⟨?_, ?_, ?_⟩
  · intro h1 h2 h3
    simp [mergeSources, h1, h2, h3]
  · intro h1 h2
    simp [mergeSources, h1, h2]
  · intro h1 h2
    simp [mergeSources, h1, h2]

/-- Witness for C9 (amended): differing tags collapse to
`"chat+settings"`; a lone tag wins from either side. -/
theorem merge_sources_spec_witness :
    mergeSources [("source", Value.vStr "a")] [("source", Value.vStr "b")] =
      Value.vStr "chat+settings" ∧
    mergeSources [] [("source", Value.vStr "settings")] =
      (payloadLookup [("source", Value.vStr "settings")] "source").getD .vNull ∧
    mergeSources [("source", Value.vStr "chat")] [] =
      (payloadLookup [("source", Value.vStr "chat")] "source").getD .vNull :=
  ⟨(merge_sources_spec [("source", Value.vStr "a")] [("source", Value.vStr "b")]).1
      rfl rfl rfl,
    (merge_sources_spec [] [("source", Value.vStr "settings")]).2.1 rfl rfl,
    (merge_sources_spec [("source", Value.vStr "chat")] []).2.2 rfl rfl⟩

theorem payloadLookup_map_replace (k : String) (v : Value) :
    ∀ p : Payload,
      payloadLookup (p.map (fun kv => if kv.1 == k then (kv.1, v) else kv)) k =
        (payloadLookup p k).map (fun _ => v)
  | [] => rfl
  | kv :: t => by
      by_cases hk : kv.1 = k
      · simp [payloadLookup, List.find?_cons, hk]
      · have hkb : (kv.1 == k) = false := by simpa using hk
        have ih := payloadLookup_map_replace k v t
        simpa [payloadLookup, List.find?_cons, hk, hkb] using ih

theorem payloadLookup_dictInsert (p : Payload) (k : String) (v : Value) :
    payloadLookup (dictInsert p k v) k = some v := by
  unfold dictInsert
  by_cases h : p.any (fun kv => kv.1 == k)
  · rw [if_pos h, payloadLookup_map_replace]
    obtain ⟨kv, hkv, hk⟩ := List.any_eq_true.mp h
    cases hfind : List.find? (fun kv => kv.1 == k) p with
    | none =>
        have := List.find?_eq_none.mp hfind kv hkv
        exact absurd hk this
    | some x => simp [payloadLookup, hfind]
  · rw [if_neg h]
    unfold payloadLookup
    rw [List.find?_append]
    have h1 : List.find? (fun kv => kv.1 == k) p = none :=
      List.find?_eq_none.mpr (fun x hx hxk =>
        absurd (List.any_eq_true.mpr ⟨x, hx, hxk⟩) h)
    rw [h1]
    simp

/-- C10: for every existing and incoming payload, the merge function
registered for `child_activity_preferences` returns a payload whose
key set is exactly `favorite_activities`, `tags`, `source`; in
particular the `_dedupe_key` back-reference — which
`_persist_pending_knowledge` stores into the payload at creation time
(third conjunct, the `{**final_payload, "_dedupe_key": dk}` step) — is
absent from every merged result. -/
theorem activity_merge_key_set (existing incoming : Payload) :
    (mergeActivityPreferences existing incoming).map Prod.fst =
      ["favorite_activities", "tags", "source"] ∧
    payloadLookup (mergeActivityPreferences existing incoming) "_dedupe_key" = none ∧
    (∀ (p : Payload) (dk : String),
      payloadLookup (dictInsert p "_dedupe_key" (.vStr dk)) "_dedupe_key" =
        some (.vStr dk)) :=
  ⟨rfl, rfl, fun p dk => payloadLookup_dictInsert p "_dedupe_key" (.vStr dk)⟩

theorem kiId_le_fold :
    ∀ (db : KDB) (r : KnowledgeItem), r ∈ db →
      r.id ≤ db.foldr (fun r acc => max r.id acc) 0
  | [], r, h => absurd h (List.not_mem_nil r)
  | a :: t, r, h => by
      rcases List.mem_cons.mp h with rfl | ht
      · exact le_max_left _ _
      · exact le_trans (kiId_le_fold t r ht) (le_max_right _ _)

theorem kiId_lt_fresh (db : KDB) (r : KnowledgeItem) (h : r ∈ db) :
    r.id < freshKnowledgeId db := by
  have := kiId_le_fold db r h
  unfold freshKnowledgeId
  omega

theorem getKnowledgeItem_append_fresh (db : KDB) (row : KnowledgeItem)
    (hid : row.id = freshKnowledgeId db) :
    getKnowledgeItem (db ++ [row]) row.id = some row := by
  unfold getKnowledgeItem
  rw [List.find?_append]
  have h1 : db.find? (fun r => r.id == row.id) = none := by
    refine List.find?_eq_none.mpr (fun x hx => ?_)
    have := kiId_lt_fresh db x hx
    simp only [beq_iff_eq]
    omega
  rw [h1]
  simp

theorem createKnowledgeItem_spec (db : KDB) (pid : Int) (key : String)
    (ty : KnowledgeItemType) (st : KnowledgeItemStatus) (p : Payload) (now : Int) :
    ∃ c : KnowledgeItem, createKnowledgeItem db pid key ty st p now = some (c, db ++ [c]) ∧
      c.profileId = pid ∧ c.key = key ∧ c.type = ty ∧ c.status = st ∧
      c.payload = p ∧ c.id = freshKnowledgeId db ∧ c.updatedAt = now := by
  refine ⟨{ id := freshKnowledgeId db
            profileId := pid
            key := key
            type := ty
            status := st
            payload := p
            createdAt := now
            updatedAt := now
            lastPromptedAt := none
            lastPromptedSessionId := none }, ?_, rfl, rfl, rfl, rfl, rfl, rfl, rfl⟩
  simp only [createKnowledgeItem]
  rw [getKnowledgeItem_append_fresh db _ rfl]
  rfl

theorem kFind_of_mem_nodup :
    ∀ (db : KDB) (r : KnowledgeItem), (db.map (·.id)).Nodup → r ∈ db →
      db.find? (fun x => x.id == r.id) = some r
  | [], r, _, h => absurd h (List.not_mem_nil r)
  | a :: t, r, hnd, h => by
      simp only [List.map_cons, List.nodup_cons] at hnd
      rcases List.mem_cons.mp h with rfl | ht
      · simp [List.find?_cons]
      · have hne : (a.id == r.id) = false := by
          simp only [beq_eq_false_iff_ne, ne_eq]
          intro he
          apply hnd.1
          rw [he]
          exact List.mem_map_of_mem (·.id) ht
        simp only [List.find?_cons, hne]
        exact kFind_of_mem_nodup t r hnd.2 ht

theorem nodup_id_eq (db : KDB) (hnd : (db.map (·.id)).Nodup)
    (i j : KnowledgeItem) (hi : i ∈ db) (hj : j ∈ db) (hij : i.id = j.id) :
    i = j := by
  have h1 := kFind_of_mem_nodup db i hnd hi
  have h2 := kFind_of_mem_nodup db j hnd hj
  rw [hij] at h1
  rw [h1] at h2
  exact Option.some.inj h2

theorem mem_updStatusDb_of_ne (db : KDB) (id : Nat) (st : KnowledgeItemStatus)
    (now : Int) {i : KnowledgeItem} (hi : i ∈ db) (hne : i.id ≠ id) :
    i ∈ updStatusDb db id st now := by
  have := List.mem_map_of_mem
    (fun x => if x.id = id then { x with status := st, updatedAt := now } else x) hi
  simpa [updStatusDb, if_neg hne] using this

theorem mem_updStatusDb_self (db : KDB) (id : Nat) (st : KnowledgeItemStatus)
    (now : Int) {i : KnowledgeItem} (hi : i ∈ db) (hid : i.id = id) :
    ({ i with status := st, updatedAt := now } : KnowledgeItem) ∈
      updStatusDb db id st now := by
  have := List.mem_map_of_mem
    (fun x => if x.id = id then { x with status := st, updatedAt := now } else x) hi
  simpa [updStatusDb, if_pos hid] using this

theorem foldReject_mem_of_safe (key : String) (now : Int) :
    ∀ (L : List KnowledgeItem) (acc : KDB) (i : KnowledgeItem),
      i ∈ acc → (∀ j ∈ L, rejectCond key j = true → j.id ≠ i.id) →
      i ∈ L.foldl (rejectStep key now) acc
  | [], _, i, hi, _ => hi
  | j :: t, acc, i, hi, hsafe => by
      simp only [List.foldl_cons]
      refine foldReject_mem_of_safe key now t _ i ?_
        (fun j' hj' hc => hsafe j' (List.mem_cons_of_mem _ hj') hc)
      unfold rejectStep
      by_cases hc : rejectCond key j
      · rw [if_pos hc]
        exact mem_updStatusDb_of_ne _ _ _ _ hi
          (fun he => hsafe j (List.mem_cons_self _ _) hc he.symm)
      · rw [if_neg hc]
        exact hi

theorem foldReject_rejects (key : String) (now : Int) :
    ∀ (L : List KnowledgeItem) (acc : KDB) (i : KnowledgeItem),
      i ∈ L → rejectCond key i = true → i ∈ acc → (L.map (·.id)).Nodup →
      ({ i with status := .rejected, updatedAt := now } : KnowledgeItem) ∈
        L.foldl (rejectStep key now) acc
  | [], _, i, him, _, _, _ => absurd him (List.not_mem_nil i)
  | j :: t, acc, i, him, hcond, hacc, hnd => by
      simp only [List.map_cons, List.nodup_cons] at hnd
      simp only [List.foldl_cons]
      rcases List.mem_cons.mp him with rfl | ht
      · unfold rejectStep
        rw [if_pos hcond]
        refine foldReject_mem_of_safe key now t _ _
          (mem_updStatusDb_self _ _ _ _ hacc rfl) ?_
        intro j' hj' _ he
        apply hnd.1
        rw [← he]
        exact List.mem_map_of_mem (·.id) hj'
      · have hji : j.id ≠ i.id := by
          intro he
          apply hnd.1
          rw [he]
          exact List.mem_map_of_mem (·.id) ht
        have hacc' : i ∈ rejectStep key now acc j := by
          unfold rejectStep
          by_cases hc : rejectCond key j
          · rw [if_pos hc]
            exact mem_updStatusDb_of_ne _ _ _ _ hacc (Ne.symm hji)
          · rw [if_neg hc]
            exact hacc
        exact foldReject_rejects key now t _ i ht hcond hacc' hnd.2

theorem listKnowledgeItems_none_mem (db : KDB) (pid : Int) (h50 : db.length ≤ 50)
    (i : KnowledgeItem) (hi : i ∈ db) (hpid : i.profileId = pid) :
    i ∈ listKnowledgeItems db pid none 50 := by
  unfold listKnowledgeItems
  rw [List.take_of_length_le (by
    rw [(List.perm_insertionSort updatedDesc _).length_eq]
    exact le_trans (List.length_filter_le _ _) h50)]
  exact ((List.perm_insertionSort updatedDesc _).mem_iff).mpr
    (List.mem_filter.mpr ⟨hi, by simp [hpid]⟩)

theorem listKnowledgeItems_subset (db : KDB) (pid : Int)
    (status : Option KnowledgeItemStatus) (limit : Nat) (j : KnowledgeItem)
    (hj : j ∈ listKnowledgeItems db pid status limit) : j ∈ db := by
  unfold listKnowledgeItems at hj
  have h1 := (List.take_sublist _ _).subset hj
  have h2 := (List.perm_insertionSort updatedDesc _).subset h1
  exact (List.mem_filter.mp h2).1

theorem listKnowledgeItems_nodup_ids (db : KDB) (pid : Int)
    (status : Option KnowledgeItemStatus) (limit : Nat)
    (hnd : (db.map (·.id)).Nodup) :
    ((listKnowledgeItems db pid status limit).map (·.id)).Nodup := by
  unfold listKnowledgeItems
  refine List.Nodup.sublist (List.Sublist.map _ (List.take_sublist _ _)) ?_
  rw [((List.perm_insertionSort updatedDesc _).map (·.id)).nodup_iff]
  exact List.Nodup.sublist (List.Sublist.map _ (List.filter_sublist _)) hnd

theorem findKnowledgeItem_mem {db : KDB} {pid : Int} {key : String}
    {e : KnowledgeItem} (h : findKnowledgeItem db pid key = some e) : e ∈ db := by
  unfold findKnowledgeItem at h
  have h1 : e ∈ List.insertionSort updatedDesc
      (db.filter (fun i => i.profileId == pid && i.key == key)) :=
    List.mem_of_mem_head? (by simp [h])
  have h2 := (List.perm_insertionSort updatedDesc _).subset h1
  exact (List.mem_filter.mp h2).1

theorem updateKnowledgeItemPayload_spec (db : KDB) (e : KnowledgeItem) (p : Payload)
    (st : Option KnowledgeItemStatus) (now : Int)
    (hnd : (db.map (·.id)).Nodup) (hmem : e ∈ db) :
    updateKnowledgeItemPayload db e.id p st now =
      some ({ e with payload := p, status := st.getD e.status, updatedAt := now },
        updPayloadDb db e.id p st now) := by
  have hfind2 : db.find? (fun x => x.id == e.id) = some e :=
    kFind_of_mem_nodup db e hnd hmem
  have hmap : (updPayloadDb db e.id p st now).find? (fun x => x.id == e.id) =
      some ({ e with payload := p, status := st.getD e.status, updatedAt := now }) := by
    unfold updPayloadDb
    rw [List.find?_map]
    have hcong : ((fun x : KnowledgeItem => x.id == e.id) ∘
        (fun i => if i.id = e.id then
          { i with payload := p, status := st.getD i.status, updatedAt := now }
        else i)) = (fun x : KnowledgeItem => x.id == e.id) := by
      funext x
      by_cases h : x.id = e.id <;> simp [h]
    rw [hcong, hfind2]
    simp
  simp only [updateKnowledgeItemPayload, getKnowledgeItem, hmap, Option.map_some]
  rfl

theorem createMatch_mem (db : KDB) (pid : Int) (key : String)
    (ty : KnowledgeItemType) (st : KnowledgeItemStatus) (FP : Payload) (now : Int)
    (i : KnowledgeItem) (hi : i ∈ db) :
    i ∈ (match createKnowledgeItem db pid key ty st FP now with
         | some (_, db') => db'
         | none => db) := by
  obtain ⟨c, hc, -, -, -, -, -, -, -⟩ := createKnowledgeItem_spec db pid key ty st FP now
  rw [hc]
  exact List.mem_append_left _ hi

/-- Counterexample to C3: `exC3Db` holds an explicit active item
(id 1) and a more recently updated inferred active item (id 2) for the
same key.  `set_explicit_knowledge` dispatches on the most recently
updated item only, so instead of updating the existing explicit item it
inserts a fresh one: afterwards TWO active items exist for the key and
item 1 still carries its old payload — refuting both "updates that
item's payload" and "the explicit item becomes the sole active item". -/
theorem explicit_precedence_counterexample :
    exStaleExplicit.type = KnowledgeItemType.explicit ∧
    exStaleExplicit.status = KnowledgeItemStatus.active ∧
    (setExplicitKnowledge exC3Db 1 "care_framework" [("v", Value.vInt 2)] 10).map
        (fun res =>
          ((res.2.filter (fun i => i.profileId == 1 && i.key == "care_framework" &&
              i.status == KnowledgeItemStatus.active)).length,
            (res.2.find? (fun i => i.id == 1)).map (fun i => i.payload))) =
      some (2, some [("v", Value.vInt 1)]) :=
  ⟨rfl, rfl, rfl⟩

/-- C3 (amended): `set_explicit_knowledge` dispatches on the most
recently updated item for (profile, key).  First conjunct: when that
item exists and has type explicit, its payload is replaced and it is
forced active.  Second conjunct: otherwise (no item, or a non-explicit
latest item), on a table of at most 50 rows with distinct ids, a fresh
explicit/active item is inserted, every active inferred item for the
key is transitioned to rejected, and existing explicit items are left
untouched.  Third conjunct: the inferred write
(`_persist_pending_knowledge`) never changes the status or type of any
existing item — an inferred write never demotes an explicit item. -/
theorem explicit_precedence :
    (∀ (db : KDB) (pid : Int) (key : String) (payload : Payload) (now : Int)
        (e : KnowledgeItem),
      (db.map (·.id)).Nodup →
      findKnowledgeItem db pid key = some e → e.type = KnowledgeItemType.explicit →
      setExplicitKnowledge db pid key payload now =
        some ({ e with payload := payload, status := .active, updatedAt := now },
          updPayloadDb db e.id payload (some .active) now)) ∧
    (∀ (db : KDB) (pid : Int) (key : String) (payload : Payload) (now : Int),
      (db.map (·.id)).Nodup → db.length ≤ 50 →
      (∀ e, findKnowledgeItem db pid key = some e →
        e.type ≠ KnowledgeItemType.explicit) →
      ∃ c db', setExplicitKnowledge db pid key payload now = some (c, db') ∧
        c.type = KnowledgeItemType.explicit ∧ c.status = KnowledgeItemStatus.active ∧
        c.payload = payload ∧ c.profileId = pid ∧ c.key = key ∧ c ∈ db' ∧
        (∀ i ∈ db, i.profileId = pid → i.key = key →
          i.type = KnowledgeItemType.inferred → i.status = KnowledgeItemStatus.active →
          { i with status := .rejected, updatedAt := now } ∈ db') ∧
        (∀ i ∈ db, i.type = KnowledgeItemType.explicit → i ∈ db')) ∧
    (∀ (db : KDB) (profileId : Option Int) (key : String) (p : Payload)
        (dk : Option String) (now : Int) (i : KnowledgeItem), i ∈ db →
      ∃ i', i' ∈ persistPendingKnowledge db profileId key p dk now ∧
        i'.id = i.id ∧ i'.status = i.status ∧ i'.type = i.type) := by
  refine ⟨?_, ?_, ?_⟩
  · intro db pid key payload now e hnd hfind hex
    have hmem : e ∈ db := findKnowledgeItem_mem hfind
    simp only [setExplicitKnowledge, hfind, if_pos hex]
    exact updateKnowledgeItemPayload_spec db e payload (some .active) now hnd hmem
  · intro db pid key payload now hnd h50 hnotex
    have main : ∀ db1rest : Unit,
        ∃ c db', createKnowledgeItem (rejectInferredKnowledge db pid key now) pid key
            .explicit .active payload now = some (c, db') ∧
          c.type = KnowledgeItemType.explicit ∧ c.status = KnowledgeItemStatus.active ∧
          c.payload = payload ∧ c.profileId = pid ∧ c.key = key ∧ c ∈ db' ∧
          (∀ i ∈ db, i.profileId = pid → i.key = key →
            i.type = KnowledgeItemType.inferred →
            i.status = KnowledgeItemStatus.active →
            { i with status := .rejected, updatedAt := now } ∈ db') ∧
          (∀ i ∈ db, i.type = KnowledgeItemType.explicit → i ∈ db') := by
      intro _
      obtain ⟨c, hc, hcp, hck, hct, hcs, hcpay, -, -⟩ :=
        createKnowledgeItem_spec (rejectInferredKnowledge db pid key now) pid key
          .explicit .active payload now
      refine ⟨c, _, hc, hct, hcs, hcpay, hcp, hck, ?_, ?_, ?_⟩
      · exact List.mem_append_right _ (List.mem_cons_self _ _)
      · intro i hi hip hik hity hist
        apply List.mem_append_left
        unfold rejectInferredKnowledge
        refine foldReject_rejects key now _ db i
          (listKnowledgeItems_none_mem db pid h50 i hi hip) ?_ hi
          (listKnowledgeItems_nodup_ids db pid none 50 hnd)
        simp [rejectCond, hik, hity, hist]
      · intro i hi hiex
        apply List.mem_append_left
        unfold rejectInferredKnowledge
        refine foldReject_mem_of_safe key now _ db i hi ?_
        intro j hj hc hji
        have hjdb := listKnowledgeItems_subset db pid none 50 j hj
        have hjeq : j = i := nodup_id_eq db hnd j i hjdb hi hji
        have hj2 : j.type = KnowledgeItemType.inferred := by
          simp only [rejectCond, Bool.and_eq_true, beq_iff_eq] at hc
          exact hc.1.2
        rw [hjeq, hiex] at hj2
        exact absurd hj2 (by decide)
    cases hfind : findKnowledgeItem db pid key with
    | none =>
        obtain ⟨c, db', hc, rest⟩ := main ()
        exact ⟨c, db', by simp only [setExplicitKnowledge, hfind]; exact hc, rest⟩
    | some e =>
        have hne := hnotex e hfind
        obtain ⟨c, db', hc, rest⟩ := main ()
        exact ⟨c, db', by simp only [setExplicitKnowledge, hfind, if_neg hne]; exact hc,
          rest⟩
  · intro db profileId key p dk now i hi
    cases profileId with
    | none => exact ⟨i, hi, rfl, rfl, rfl⟩
    | some pid =>
        cases hex : findKnowledgeItem db pid key with
        | none =>
            refine ⟨i, ?_, rfl, rfl, rfl⟩
            simp only [persistPendingKnowledge, hex]
            exact createMatch_mem db pid key _ _ _ now i hi
        | some e =>
            by_cases hlive : (e.status != KnowledgeItemStatus.rejected) = true
            · cases hmf : mergeHandlers key with
              | some f =>
                  simp only [persistPendingKnowledge, hex, hmf, hlive, if_true]
                  unfold updPayloadDb
                  refine ⟨_, List.mem_map_of_mem _ hi, ?_, ?_, ?_⟩ <;>
                    by_cases h : i.id = e.id <;> simp [h]
              | none =>
                  refine ⟨i, ?_, rfl, rfl, rfl⟩
                  simp only [persistPendingKnowledge, hex, hmf, hlive, if_true]
                  exact hi
            · simp only [persistPendingKnowledge, hex, Bool.not_eq_true] at hlive ⊢
              rw [hlive]
              simp only [Bool.false_eq_true, if_false]
              exact ⟨i, createMatch_mem db pid key _ _ _ now i hi, rfl, rfl, rfl⟩

/-- Witness for C3 (amended): the explicit-latest branch updates in
place on a one-row table; the non-explicit branch on `exC3Db` rejects
the inferred item, keeps the stale explicit item, and inserts a fresh
explicit item; and a concrete inferred write preserves statuses. -/
theorem explicit_precedence_witness :
    (setExplicitKnowledge [exStaleExplicit] 1 "care_framework" [("v", Value.vInt 3)] 9 =
      some ({ exStaleExplicit with
                payload := [("v", Value.vInt 3)], status := .active, updatedAt := 9 },
        updPayloadDb [exStaleExplicit] exStaleExplicit.id [("v", Value.vInt 3)]
          (some .active) 9)) ∧
    (∃ c db', setExplicitKnowledge exC3Db 1 "care_framework" [("v", Value.vInt 2)] 10 =
        some (c, db') ∧
      c.type = KnowledgeItemType.explicit ∧ c.status = KnowledgeItemStatus.active ∧
      c.payload = [("v", Value.vInt 2)] ∧ c.profileId = 1 ∧
      c.key = "care_framework" ∧ c ∈ db' ∧
      (∀ i ∈ exC3Db, i.profileId = 1 → i.key = "care_framework" →
        i.type = KnowledgeItemType.inferred → i.status = KnowledgeItemStatus.active →
        { i with status := .rejected, updatedAt := 10 } ∈ db') ∧
      (∀ i ∈ exC3Db, i.type = KnowledgeItemType.explicit → i ∈ db')) ∧
    (∃ i', i' ∈ persistPendingKnowledge [exStaleExplicit] (some 1) "care_framework"
        [("framework", Value.vStr "moms_on_call")] (some "dk-9") 11 ∧
      i'.id = exStaleExplicit.id ∧ i'.status = exStaleExplicit.status ∧
      i'.type = exStaleExplicit.type) := by
  refine ⟨?_, ?_, ?_⟩
  · exact explicit_precedence.1 [exStaleExplicit] 1 "care_framework"
      [("v", Value.vInt 3)] 9 exStaleExplicit (by decide) rfl rfl
  · refine explicit_precedence.2.1 exC3Db 1 "care_framework" [("v", Value.vInt 2)] 10
      (by decide) (by decide) ?_
    intro e he
    rw [show findKnowledgeItem exC3Db 1 "care_framework" = some exFreshInferred
      from rfl] at he
    cases he
    decide
  · exact explicit_precedence.2.2 [exStaleExplicit] (some 1) "care_framework"
      [("framework", Value.vStr "moms_on_call")] (some "dk-9") 11 exStaleExplicit
      (List.mem_cons_self _ _)

end Havi
